import Mathlib

/-!
Verification of the cliasi terminal-presentation library
(`src/cliasi/cliasi.py`, `src/cliasi/constants.py`).

Modelling conventions:
* Python `str` values are modelled as `List Char` (a Python string is a
  sequence of code points, and `len`/slicing/concatenation on it correspond
  exactly to `List.length`/`take`/`drop`/`++`).
* Python `int` is modelled as `Int` (`Nat` where the source value is
  provably non-negative).
* Writes to the terminal are modelled as the written strings themselves:
  a rendering call returns the `List Char` it prints, and stateful task
  operations return `state × List (List Char)` (the list of lines written
  by that operation, in order).
* Fallible code returns `Except PyError _`.
-/

/- ANSI color constants from `constants.py` (`TextColor` in the source
imports; the values are those of the `Color` enum in `src/cliasi/constants.py`,
e.g. `DIM = "\x1b[2m"`).  Note their *string length* (4-5 code points each)
enters the layout computation through `len(self.__prefix)`. -/
namespace TextColor

def RESET : List Char := "\x1b[0m".toList

def DIM : List Char := "\x1b[2m".toList

def WHITE : List Char := "\x1b[37m".toList

def BLUE : List Char := "\x1b[34m".toList

def MAGENTA : List Char := "\x1b[35m".toList

def BRIGHT_WHITE : List Char := "\x1b[97m".toList

def BRIGHT_YELLOW : List Char := "\x1b[93m".toList

def BRIGHT_RED : List Char := "\x1b[91m".toList

def BRIGHT_GREEN : List Char := "\x1b[92m".toList

def BRIGHT_MAGENTA : List Char := "\x1b[95m".toList

def BRIGHT_CYAN : List Char := "\x1b[96m".toList

end TextColor

/-- `Modelled from the spec:` the `UNICORN` color-cycle constant is imported
by `cliasi.py` but absent from `src/cliasi/constants.py`.  The spec calls
unicorn mode a purely cosmetic color variation; no claim depends on its
values, so it is modelled as an abstract (empty) catalog and indexed
defensively with `getD`. -/
def UNICORN : List (List Char) := []

/-- The `Cliasi` instance settings (class `Cliasi`, `cliasi.py`).
`pfx` models the private `__prefix` attribute, which stores
`TextColor.DIM + "[" + prefix + "]"` (see `update_prefix`); `sep` models
`prefix_seperator`.  (Those two source attribute names cannot be used
verbatim here, they collide with reserved words.) -/
structure Cliasi where
  pfx : List Char
  sep : List Char
  messages_stay_in_one_line : Bool
  enable_colors : Bool
  min_verbose_level : Int

/-- `update_prefix`: the stored prefix is `TextColor.DIM + f"[{prefix}]"`. -/
def pfxOf (p : List Char) : List Char :=
  TextColor.DIM ++ '[' :: p ++ [']']

/-- `Cliasi.__verbose_check`: `True` (do **not** send) iff the message's
verbosity level is strictly above the instance threshold. -/
def verboseCheck (c : Cliasi) (level : Int) : Bool :=
  level > c.min_verbose_level

/-- `Cliasi.__print`: the single line written by one `print(...)` call.
`print` joins its five positional arguments with single spaces and appends
`end`; the written text is
`"\r\x1b[2K\r" + " " + color?+symbol + " " + DIM+prefix+RESET + " " +
 separator+color? + " " + message + end` with
`end = ("" if oneline else "\n") + RESET`. -/
def cliPrint (c : Cliasi) (color symbol message : List Char)
    (override_messages_stay_in_one_line : Option Bool) (color_message : Bool) :
    List Char :=
  let oneline := override_messages_stay_in_one_line.getD c.messages_stay_in_one_line
  "\r\x1b[2K\r".toList ++ [' '] ++
    ((if c.enable_colors then color else []) ++ symbol) ++ [' '] ++
    (TextColor.DIM ++ c.pfx ++ TextColor.RESET) ++ [' '] ++
    (c.sep ++ (if c.enable_colors && color_message then color else [])) ++ [' '] ++
    message ++
    ((if oneline then [] else ['\n']) ++ TextColor.RESET)

/-- `Cliasi.message`: `None` when the verbosity gate suppresses the message,
otherwise `some` of the written line. -/
def Cliasi.message (c : Cliasi) (message : List Char) (verbosity : Int)
    (ov : Option Bool) : Option (List Char) :=
  if verboseCheck c verbosity then none
  else some (cliPrint c (TextColor.WHITE ++ TextColor.DIM) ['#'] message ov false)

/-- `Cliasi.info`. -/
def Cliasi.info (c : Cliasi) (message : List Char) (verbosity : Int)
    (ov : Option Bool) : Option (List Char) :=
  if verboseCheck c verbosity then none
  else some (cliPrint c TextColor.BRIGHT_WHITE ['i'] message ov false)

/-- `Cliasi.log`. -/
def Cliasi.log (c : Cliasi) (message : List Char) (verbosity : Int)
    (ov : Option Bool) : Option (List Char) :=
  if verboseCheck c verbosity then none
  else some (cliPrint c (TextColor.WHITE ++ TextColor.DIM) "LOG".toList message ov false)

/-- `Cliasi.log_small`. -/
def Cliasi.log_small (c : Cliasi) (message : List Char) (verbosity : Int)
    (ov : Option Bool) : Option (List Char) :=
  if verboseCheck c verbosity then none
  else some (cliPrint c (TextColor.WHITE ++ TextColor.DIM) ['L'] message ov false)

/-- `Cliasi.list`. -/
def Cliasi.list (c : Cliasi) (message : List Char) (verbosity : Int)
    (ov : Option Bool) : Option (List Char) :=
  if verboseCheck c verbosity then none
  else some (cliPrint c TextColor.BRIGHT_WHITE ['-'] message ov false)

/-- `Cliasi.warn` (here `color_message` keeps its default `True`). -/
def Cliasi.warn (c : Cliasi) (message : List Char) (verbosity : Int)
    (ov : Option Bool) : Option (List Char) :=
  if verboseCheck c verbosity then none
  else some (cliPrint c TextColor.BRIGHT_YELLOW ['!'] message ov true)

/-- `Cliasi.fail`. -/
def Cliasi.fail (c : Cliasi) (message : List Char) (verbosity : Int)
    (ov : Option Bool) : Option (List Char) :=
  if verboseCheck c verbosity then none
  else some (cliPrint c TextColor.BRIGHT_RED ['X'] message ov true)

/-- `Cliasi.success`. -/
def Cliasi.success (c : Cliasi) (message : List Char) (verbosity : Int)
    (ov : Option Bool) : Option (List Char) :=
  if verboseCheck c verbosity then none
  else some (cliPrint c TextColor.BRIGHT_GREEN ['✔'] message ov true)

/-- `Cliasi.__show_animation_frame`: renders one animation frame via
`__print(color, current_symbol_frame,
         current_animation_frame + ("" if frame == "" else " ") + message, True)`. -/
def show_animation_frame (c : Cliasi) (message color current_symbol_frame
    current_animation_frame : List Char) : List Char :=
  cliPrint c color current_symbol_frame
    (current_animation_frame ++
      (if current_animation_frame = [] then [] else [' ']) ++ message)
    (some true) true

/-- A Python value passed as the `progress` argument: the declared type is
`int`, but the source's `try: int(progress) / except ValueError` shows string
input is anticipated. -/
inductive PyVal where
  | int (n : Int)
  | str (s : List Char)
deriving DecidableEq

/-- A Python exception escaping the layout function. -/
inductive PyError where
  | typeError
deriving DecidableEq

/-- Python `str(n)` for an integer (same digits/sign form as `toString`). -/
def pyStrOfInt (n : Int) : List Char := (toString n).toList

/-- `dead_space` (line 297): `len(symbol) + 2 + len(self.__prefix) +
len(self.prefix_seperator) + (len(f" {p}%") if show_percent else 0)`, where
`p` is the *int-converted, unclamped* progress. -/
def deadSpace (c : Cliasi) (symbol : List Char) (p0 : Int) (show_percent : Bool) : Int :=
  (symbol.length : Int) + 2 + c.pfx.length + c.sep.length +
    (if show_percent then ((' ' :: pyStrOfInt p0 ++ ['%']).length : Int) else 0)

/-- `inside_width = max(8, total_cols - max(0, dead_space) - 2)` (line 306).
Always at least 8, so the `Int.toNat` is lossless. -/
def insideWidth (total_cols : Int) (dead : Int) : Nat :=
  (max 8 (total_cols - max 0 dead - 2)).toNat

/-- Message truncation (lines 312-317): if the message exceeds the available
width it is cut to `width - 1` code points plus a single ellipsis when at
least 3 columns are available, else hard-cut to `width`.
(`max_message_width = max(0, inside_width)` is just `inside_width`.) -/
def truncMsg (msg : List Char) (mmw : Nat) : List Char :=
  if msg.length > mmw then
    if mmw ≥ 3 then msg.take (mmw - 1) ++ ['…'] else msg.take mmw
  else msg

/-- `msg_start = max(0, (usable_width - M) // 2)` (line 324).  Nat
subtraction/division coincide with Python's `max(0, floor-div)` here. -/
def msgStart (w M : Nat) : Nat := (w - M) / 2

/-- Python list-slice assignment `bar[s : s + len(repl)] = repl` (used at
line 332 with the slice fully in range, where it replaces exactly
`repl.length` cells). -/
def setSlice (l : List Char) (s : Nat) (repl : List Char) : List Char :=
  l.take s ++ repl ++ l.drop (s + repl.length)

/-- Round-half-to-even of the non-negative rational `num / den` to an
integer: exactly Python 3's `round()` on such a value, and also the final
rounding step of IEEE round-to-nearest-even. -/
def roundHalfEven (num den : Nat) : Nat :=
  let q := num / den
  let r := num % den
  if 2 * r < den then q
  else if den < 2 * r then q + 1
  else if q % 2 = 0 then q else q + 1

/-- Fuel-bounded floor of `log2` (structural recursion, so the kernel can
evaluate it; with fuel `n` it computes `Nat.log2 n` for every `n`). -/
def log2Aux : Nat → Nat → Nat
  | 0, _ => 0
  | fuel + 1, n => if n < 2 then 0 else log2Aux fuel (n / 2) + 1

/-- `⌊log2 n⌋` (0 at 0), kernel-evaluable. -/
def natLog2 (n : Nat) : Nat := log2Aux n n

/-- `⌊log2 (a / b)⌋` for positive naturals `a, b`: the candidate
`⌊log2 a⌋ - ⌊log2 b⌋` is corrected down by one when `a / b` falls below
that power of two. -/
def floorLog2 (a b : Nat) : Int :=
  let la := natLog2 a
  let lb := natLog2 b
  if lb ≤ la then
    (if b * 2 ^ (la - lb) ≤ a then (la - lb : Int) else (la - lb : Int) - 1)
  else
    (if b ≤ a * 2 ^ (lb - la) then -((lb - la : Int) : Int) else -((lb - la : Int) : Int) - 1)

/-- Round the non-negative rational `a / b` (`b > 0`) to the nearest IEEE
binary64 double (53-bit significand, round-to-nearest, ties to the even
mantissa), returned exactly as a numerator/denominator pair whose
denominator is a power of two.  The exponent is unbounded: the model is
bit-exact for every value outside the subnormal/overflow ranges, which the
layout computation never reaches below the width bound used in the
theorems.  (Validated against CPython's binary64 arithmetic across the
full progress range and terminal widths beyond 2^53.) -/
def roundDouble (a b : Nat) : Nat × Nat :=
  if a = 0 then (0, 1)
  else
    let s : Int := floorLog2 a b - 52
    if 0 ≤ s then
      (roundHalfEven a (b * 2 ^ s.toNat) * 2 ^ s.toNat, 1)
    else
      (roundHalfEven (a * 2 ^ (-s).toNat) b, 2 ^ (-s).toNat)

/-- `target_fill = round((p / 100.0) * inside_width)` (line 337), for the
clamped progress `p`, computed as Python computes it: `p / 100.0` is a
correctly rounded IEEE binary64 division, `inside_width` is converted to a
double, the product is again correctly rounded, and `round()` rounds the
resulting double half-to-even to an integer. -/
def targetFill (p : Nat) (w : Nat) : Nat :=
  let d1 := roundDouble p 100
  let wf := roundDouble w 1
  let prod := roundDouble (d1.1 * wf.1) (d1.2 * wf.2)
  roundHalfEven prod.1 prod.2

/-- The claim's exact-arithmetic reading of
`round(progress / 100 * inside_width)`: round-half-to-even on the exact
rational `p * w / 100`.  This is a spec-side definition, kept only to be
compared against the program's float computation `targetFill`, from which
it differs at tie-adjacent inputs (see the C7 counterexample). -/
def specTargetFill (p : Nat) (w : Nat) : Nat := roundHalfEven (p * w) 100

/-- The fill loop (lines 341-349): walk the bar left to right; stop when the
target count is reached (`t = 0`) or the bar is exhausted; skip cells inside
the message region `[s, e)`; write `'='` elsewhere, decrementing the
remaining target. -/
def fillCells (s e : Nat) : Nat → Nat → List Char → List Char
  | _, _, [] => []
  | t, i, c :: rest =>
    if t = 0 then c :: rest
    else if s ≤ i ∧ i < e then c :: fillCells s e t (i + 1) rest
    else '=' :: fillCells s e (t - 1) (i + 1) rest

/-- Remaining fill target after the loop of `fillCells` has consumed a list. -/
def fillRem (s e : Nat) : Nat → Nat → List Char → Nat
  | t, _, [] => t
  | t, i, _ :: rest =>
    if t = 0 then 0
    else if s ≤ i ∧ i < e then fillRem s e t (i + 1) rest
    else fillRem s e (t - 1) (i + 1) rest

/-- Number of `'='` cells at positions outside the message region `[s, e)`
(the cells written by the fill loop; message text keeps its own characters). -/
def countFill (s e : Nat) : Nat → List Char → Nat
  | _, [] => 0
  | i, c :: rest =>
    (if c = '=' ∧ ¬(s ≤ i ∧ i < e) then 1 else 0) + countFill s e (i + 1) rest

/-- The content between the brackets (lines 328-349): a bar of `w` blanks,
the (already truncated) message spliced in centered, then the fill loop. -/
def barCells (w : Nat) (msg : List Char) (tf : Nat) : List Char :=
  fillCells (msgStart w msg.length) (msgStart w msg.length + msg.length) tf 0
    (if msg.length > 0 then setSlice (List.replicate w ' ') (msgStart w msg.length) msg
     else List.replicate w ' ')

/-- `Cliasi.__format_progressbar_to_screen_width`, successful path (integer
progress).  `progress` is taken unclamped by `dead_space` and clamped to
`[0, 100]` before all bar computations; the result is
`"[" + bar + "]" + (f" {p}%" if show_percent else "")`. -/
def formatProgressbarOk (c : Cliasi) (total_cols : Int) (message : Option (List Char))
    (symbol : List Char) (progress : Int) (show_percent : Bool) : List Char :=
  let dead := deadSpace c symbol progress show_percent
  let p := max 0 (min 100 progress)
  let w := insideWidth total_cols dead
  let msg := truncMsg (message.getD []) w
  let bar := barCells w msg (targetFill p.toNat w)
  '[' :: bar ++ [']'] ++ (if show_percent then ' ' :: pyStrOfInt p ++ ['%'] else [])

/-- `Cliasi.__format_progressbar_to_screen_width` on an arbitrary `progress`
value.  For a string, `int(progress)` (with `ValueError` caught, defaulting
to 0) and `dead_space` are computed first without observable effect, and then
line 301, `p = max(0, min(100, progress))`, compares the **raw** `progress`
against the integers `0`/`100`, which raises `TypeError` for every `str`
input. -/
def formatProgressbar (c : Cliasi) (total_cols : Int) (message : Option (List Char))
    (symbol : List Char) : PyVal → Bool → Except PyError (List Char)
  | .int n, show_percent => .ok (formatProgressbarOk c total_cols message symbol n show_percent)
  | .str _, _ => .error .typeError

/-- The closure environment fixed at construction time by
`Cliasi.__get_animation_task` for a spinner task: color, the randomly chosen
(then fixed) symbol and main animations, and the unicorn flag. -/
structure AnimEnv where
  color : List Char
  symbol_animation : List (List Char)
  frames : List (List Char)
  frame_every : Nat
  unicorn : Bool

/-- `Cliasi.NonBlockingAnimationTask` state: `message` is `_message`,
`index` is `_index`, `condition` models the threading `Event`
(`True` = set), `threadDone` records that the background thread has
exited (so `join` returns immediately), and `message_stays_in_one_line`
is `_message_stays_in_one_line`. -/
structure NonBlockingAnimationTask where
  message : List Char
  index : Nat
  condition : Bool
  threadDone : Bool
  message_stays_in_one_line : Bool
deriving DecidableEq

/-- The `update()` closure installed as `task._update` by
`__get_animation_task`: renders the task's **current** `_message` and
`_index` via `__show_animation_frame` (it reads state, never writes it). -/
def animUpdateClosure (c : Cliasi) (env : AnimEnv) (t : NonBlockingAnimationTask) :
    List Char :=
  show_animation_frame c t.message
    (if env.unicorn then UNICORN.getD (t.index % UNICORN.length) [] else env.color)
    (env.symbol_animation.getD (t.index % env.symbol_animation.length) [])
    (env.frames.getD ((t.index / env.frame_every) % env.frames.length) [])

/-- `NonBlockingAnimationTask.update(message=None)`: overwrite `_message`
only when a message is supplied, then call `self._update()` — an immediate
render of the (new) state at the **current** frame index.  Returns the new
state and the lines written. -/
def NonBlockingAnimationTask.update (c : Cliasi) (env : AnimEnv)
    (t : NonBlockingAnimationTask) (message : Option (List Char)) :
    NonBlockingAnimationTask × List (List Char) :=
  let t1 := { t with message := message.getD t.message }
  (t1, [animUpdateClosure c env t1])

/-- `NonBlockingAnimationTask.stop`: sets the cancellation `Event`, joins
the background thread (which therefore has terminated when the call
returns), and prints a bare newline unless one-line mode is in effect.
Every one of those steps also succeeds on an already-stopped task. -/
def NonBlockingAnimationTask.stop (t : NonBlockingAnimationTask) :
    NonBlockingAnimationTask × List (List Char) :=
  ({ t with condition := true, threadDone := true },
    if t.message_stays_in_one_line then [] else [['\n']])

/-- One iteration boundary of the `animate()` thread loop
(`while not condition.is_set(): task.update(); task._index += 1; wait`):
if the cancellation signal is set the loop exits (thread terminates, no
output); otherwise it renders one frame via `task.update()` (no arguments,
i.e. `message=None`) and advances the frame index. -/
def NonBlockingAnimationTask.tick (c : Cliasi) (env : AnimEnv)
    (t : NonBlockingAnimationTask) : NonBlockingAnimationTask × List (List Char) :=
  if t.condition then ({ t with threadDone := true }, [])
  else
    let r := NonBlockingAnimationTask.update c env t none
    ({ r.1 with index := r.1.index + 1 }, r.2)

/-- The closure environment fixed at construction time by
`Cliasi.__get_progressbar_task`.  `message0` is the **captured `message`
parameter** of `__get_progressbar_task` — the `update_bar` closure reads
this variable, not the task's `_message` field. -/
structure ProgressEnv where
  message0 : List Char
  symbol_animation : List (List Char)
  show_percent : Bool
  color : List Char
  unicorn : Bool

/-- `Cliasi.NonBlockingProgressTask` state (extends the animation task
state with `_progress`). -/
structure NonBlockingProgressTask where
  message : List Char
  progress : Int
  index : Nat
  condition : Bool
  threadDone : Bool
  message_stays_in_one_line : Bool
deriving DecidableEq

/-- The `update_bar()` closure installed as `task._update` by
`__get_progressbar_task`: formats the progress bar for the closure-captured
`message` (not `task._message`!) and the task's current `_progress` and
`_index`, and shows it with an empty `current_animation_frame`. -/
def update_bar (c : Cliasi) (total_cols : Int) (env : ProgressEnv)
    (t : NonBlockingProgressTask) : List Char :=
  let current_symbol := env.symbol_animation.getD (t.index % env.symbol_animation.length) []
  show_animation_frame c
    (formatProgressbarOk c total_cols (some env.message0) current_symbol t.progress
      env.show_percent)
    (if env.unicorn then UNICORN.getD (t.index % UNICORN.length) [] else env.color)
    current_symbol []

/-- `NonBlockingProgressTask.update(message=None, progress=None)`: overwrite
`_progress` when supplied, then `super().update(message)` overwrites
`_message` when supplied and calls `self._update()` (= `update_bar`). -/
def NonBlockingProgressTask.update (c : Cliasi) (total_cols : Int) (env : ProgressEnv)
    (t : NonBlockingProgressTask) (message : Option (List Char)) (progress : Option Int) :
    NonBlockingProgressTask × List (List Char) :=
  let t1 := { t with progress := progress.getD t.progress,
                     message := message.getD t.message }
  (t1, [update_bar c total_cols env t1])

/-- `stop` on a progress task: inherited unchanged from
`NonBlockingAnimationTask`. -/
def NonBlockingProgressTask.stop (t : NonBlockingProgressTask) :
    NonBlockingProgressTask × List (List Char) :=
  ({ t with condition := true, threadDone := true },
    if t.message_stays_in_one_line then [] else [['\n']])

/-- One iteration boundary of the `animate()` loop of
`__get_progressbar_task` (same shape as the spinner loop). -/
def NonBlockingProgressTask.tick (c : Cliasi) (total_cols : Int) (env : ProgressEnv)
    (t : NonBlockingProgressTask) : NonBlockingProgressTask × List (List Char) :=
  if t.condition then ({ t with threadDone := true }, [])
  else
    let r := NonBlockingProgressTask.update c total_cols env t none none
    ({ r.1 with index := r.1.index + 1 }, r.2)

/-- The parameter names of `Cliasi.animate_message_non_blocking`
(its full source signature, `self` aside). -/
def animate_message_non_blocking_params : List String :=
  [ "message", "interval", "unicorn", "override_messages_stay_in_one_line"]

/-- The parameter names of `Cliasi.animate_message_download_non_blocking`. -/
def animate_message_download_non_blocking_params : List String :=
  [ "message", "interval", "unicorn", "override_messages_stay_in_one_line"]

/-- The parameter names of `Cliasi.progressbar_animated_normal`. -/
def progressbar_animated_normal_params : List String :=
  [ "message", "progress", "interval", "show_percent", "unicorn",
   "override_messages_stay_in_one_line"]

/-- The parameter names of `Cliasi.progressbar_animated_download`. -/
def progressbar_animated_download_params : List String :=
  [ "message", "progress", "interval", "show_percent", "unicorn",
   "override_messages_stay_in_one_line"]

/-- Whether a Python call passing keyword argument `kw` to a function with
the given parameter list (and no `**kwargs`) is accepted; if not, the call
raises `TypeError` before the function body runs. -/
def acceptsKeyword (params : List String) (kw : String) : Bool :=
  params.contains kw

/-- A sample instance: `Cliasi("AN", messages_stay_in_one_line=False,
colors=False)`. -/
def cfgAN : Cliasi :=
  { pfx := pfxOf "AN".toList, sep := "|".toList,
    messages_stay_in_one_line := false, enable_colors := false,
    min_verbose_level := 0 }

/-- A sample spinner-task environment (symbols `LOADING_SYMBOL_ALT`,
animation `LOADING_ANIMATION` from `constants.py`, no unicorn mode). -/
def envAN : AnimEnv :=
  { color := TextColor.BRIGHT_MAGENTA,
    symbol_animation := [['+'], ['-'], ['*']],
    frames := [ "|#   |".toList, "| #  |".toList, "|  # |".toList, "|   #|".toList],
    frame_every := 2, unicorn := false }

/-- A freshly started spinner task for `cfgAN` (one-line mode off). -/
def taskAN : NonBlockingAnimationTask :=
  { message := "Wait".toList, index := 0, condition := false,
    threadDone := false, message_stays_in_one_line := false }

/-- A sample instance for progress-bar tasks: `Cliasi("PB",
messages_stay_in_one_line=True, colors=False)`. -/
def cfgPB : Cliasi :=
  { pfx := pfxOf "PB".toList, sep := "|".toList,
    messages_stay_in_one_line := true, enable_colors := false,
    min_verbose_level := 0 }

/-- A sample progress-task environment: the task was started with
`message="old"`, `show_percent=True`, default symbol set `["#"]`-like. -/
def envPB : ProgressEnv :=
  { message0 := "old".toList, symbol_animation := [['#']],
    show_percent := true, color := TextColor.BLUE, unicorn := false }

/-- The corresponding freshly started progress task. -/
def taskPB : NonBlockingProgressTask :=
  { message := "old".toList, progress := 0, index := 0, condition := false,
    threadDone := false, message_stays_in_one_line := true }

/-! Lemmas about the fill loop, the slice placement and the truncation. -/

/-- A zero fill target leaves the bar untouched. -/
theorem fillCells_zero (s e : Nat) (l : List Char) : ∀ (i : Nat),
    fillCells s e 0 i l = l := by
  induction l with
  | nil => intro i; rfl
  | cons c rest ih => intro i; simp [fillCells]

/-- The fill loop does not change the bar's length. -/
theorem fillCells_length (s e : Nat) (l : List Char) : ∀ (t i : Nat),
    (fillCells s e t i l).length = l.length := by
  induction l with
  | nil => intro t i; rfl
  | cons c rest ih =>
    intro t i
    simp only [fillCells]
    split_ifs <;> simp [ih]

/-- Splitting the fill loop at a list concatenation: the second half starts
with the fill budget left over from the first half. -/
theorem fillCells_append (s e : Nat) (l1 l2 : List Char) : ∀ (t i : Nat),
    fillCells s e t i (l1 ++ l2) =
      fillCells s e t i l1 ++
        fillCells s e (fillRem s e t i l1) (i + l1.length) l2 := by
  induction l1 with
  | nil => intro t i; simp [fillCells, fillRem]
  | cons c rest ih =>
    intro t i
    simp only [List.cons_append, fillCells, fillRem, List.length_cons, List.append_eq]
    split_ifs with h1 h2
    · rw [fillCells_zero]
      simp
    · rw [ih]
      have harith : i + 1 + rest.length = i + (rest.length + 1) := by omega
      rw [harith]
      simp
    · rw [ih]
      have harith : i + 1 + rest.length = i + (rest.length + 1) := by omega
      rw [harith]
      simp

/-- On a segment entirely outside the message region the loop fills the
first `min t len` cells with `'='` and leaves the rest alone. -/
theorem fillCells_disjoint (s e : Nat) (l : List Char) : ∀ (t i : Nat),
    e ≤ i ∨ i + l.length ≤ s →
    fillCells s e t i l =
      List.replicate (min t l.length) '=' ++ l.drop (min t l.length) := by
  induction l with
  | nil => intro t i _; simp [fillCells]
  | cons c rest ih =>
    intro t i h
    simp only [List.length_cons] at h ⊢
    simp only [fillCells]
    split_ifs with h1 h2
    · subst h1
      simp
    · exfalso
      rcases h with h | h <;> omega
    · have hd : e ≤ i + 1 ∨ i + 1 + rest.length ≤ s := by
        rcases h with h | h
        · left; omega
        · right; omega
      rw [ih (t - 1) (i + 1) hd]
      have hmin : min t (rest.length + 1) = min (t - 1) rest.length + 1 := by omega
      rw [hmin, List.replicate_succ]
      simp

/-- Fill budget remaining after a segment entirely outside the message
region: the segment consumes one unit per cell. -/
theorem fillRem_disjoint (s e : Nat) (l : List Char) : ∀ (t i : Nat),
    e ≤ i ∨ i + l.length ≤ s → fillRem s e t i l = t - l.length := by
  induction l with
  | nil => intro t i _; simp [fillRem]
  | cons c rest ih =>
    intro t i h
    simp only [List.length_cons] at h ⊢
    simp only [fillRem]
    split_ifs with h1 h2
    · omega
    · exfalso
      rcases h with h | h <;> omega
    · have hd : e ≤ i + 1 ∨ i + 1 + rest.length ≤ s := by
        rcases h with h | h
        · left; omega
        · right; omega
      rw [ih (t - 1) (i + 1) hd]
      omega

/-- A segment entirely inside the message region is skipped verbatim. -/
theorem fillCells_inRegion (s e : Nat) (l : List Char) : ∀ (t i : Nat),
    s ≤ i → i + l.length ≤ e → fillCells s e t i l = l := by
  induction l with
  | nil => intro t i _ _; rfl
  | cons c rest ih =>
    intro t i h1 h2
    simp only [fillCells, List.length_cons] at h2 ⊢
    split_ifs with ht hin
    · rfl
    · rw [ih t (i + 1) (by omega) (by omega)]
    · exfalso
      exact hin ⟨h1, by omega⟩

/-- A segment entirely inside the message region consumes no fill budget. -/
theorem fillRem_inRegion (s e : Nat) (l : List Char) : ∀ (t i : Nat),
    s ≤ i → i + l.length ≤ e → fillRem s e t i l = t := by
  induction l with
  | nil => intro t i _ _; rfl
  | cons c rest ih =>
    intro t i h1 h2
    simp only [fillRem, List.length_cons] at h2 ⊢
    split_ifs with ht hin
    · omega
    · rw [ih t (i + 1) (by omega) (by omega)]
    · exfalso
      exact hin ⟨h1, by omega⟩

/-- `countFill` distributes over concatenation. -/
theorem countFill_append (s e : Nat) (l1 l2 : List Char) : ∀ (i : Nat),
    countFill s e i (l1 ++ l2) =
      countFill s e i l1 + countFill s e (i + l1.length) l2 := by
  induction l1 with
  | nil => intro i; simp [countFill]
  | cons c rest ih =>
    intro i
    simp only [List.cons_append, countFill, List.length_cons, List.append_eq]
    rw [ih (i + 1)]
    have harith : i + 1 + rest.length = i + (rest.length + 1) := by omega
    rw [harith, Nat.add_assoc]

/-- Blank cells contribute nothing to the fill count. -/
theorem countFill_space (s e : Nat) : ∀ (n i : Nat),
    countFill s e i (List.replicate n ' ') = 0 := by
  intro n
  induction n with
  | zero => intro i; rfl
  | succ n ih =>
    intro i
    simp only [List.replicate_succ, countFill]
    rw [if_neg]
    · simp [ih]
    · intro h
      exact absurd h.1 (by decide)

/-- A run of `'='` outside the message region counts fully. -/
theorem countFill_fill (s e : Nat) : ∀ (n i : Nat),
    e ≤ i ∨ i + n ≤ s → countFill s e i (List.replicate n '=') = n := by
  intro n
  induction n with
  | zero => intro i _; rfl
  | succ n ih =>
    intro i h
    simp only [List.replicate_succ, countFill]
    rw [if_pos]
    · have hd : e ≤ i + 1 ∨ i + 1 + n ≤ s := by
        rcases h with h | h
        · left; omega
        · right; omega
      rw [ih (i + 1) hd]
      omega
    · refine ⟨by trivial, ?_⟩
      rcases h with h | h <;> omega

/-- Cells inside the message region are never counted as fill. -/
theorem countFill_inRegion (s e : Nat) (l : List Char) : ∀ (i : Nat),
    s ≤ i → i + l.length ≤ e → countFill s e i l = 0 := by
  induction l with
  | nil => intro i _ _; rfl
  | cons c rest ih =>
    intro i h1 h2
    simp only [countFill, List.length_cons] at h2 ⊢
    rw [if_neg, ih (i + 1) (by omega) (by omega)]
    intro h
    exact h.2 ⟨h1, by omega⟩

/-- The centered message always fits: `msg_start + len(msg) ≤ inside_width`. -/
theorem msgStart_add_le {w M : Nat} (h : M ≤ w) : msgStart w M + M ≤ w := by
  unfold msgStart
  omega

/-- The bar before the fill loop: blanks, with the message spliced in at
`msg_start` (Python's `bar[msg_start:msg_end] = list(msg)`). -/
theorem bar1_eq (w : Nat) (msg : List Char)
    (h : msgStart w msg.length + msg.length ≤ w) :
    (if msg.length > 0 then
        setSlice (List.replicate w ' ') (msgStart w msg.length) msg
     else List.replicate w ' ') =
      List.replicate (msgStart w msg.length) ' ' ++
        (msg ++ List.replicate (w - (msgStart w msg.length + msg.length)) ' ') := by
  by_cases hM : msg.length > 0
  · rw [if_pos hM]
    unfold setSlice
    rw [List.take_replicate, List.drop_replicate, Nat.min_eq_left (by omega)]
    simp
  · rw [if_neg hM]
    have hnil : msg = [] := List.length_eq_zero.mp (by omega)
    subst hnil
    simp only [List.length_nil, Nat.add_zero] at h ⊢
    rw [List.nil_append, ← List.replicate_add]
    congr 1
    omega

/-- Normal form of the filled bar: a prefix of `'='` then blanks, the
untouched message, then more `'='` and blanks, the two fill runs together
holding `min tf (w - len(msg))` fill glyphs. -/
theorem fill_normal_form (s w tf : Nat) (msg : List Char)
    (_hsw : s + msg.length ≤ w) :
    fillCells s (s + msg.length) tf 0
        (List.replicate s ' ' ++ (msg ++ List.replicate (w - (s + msg.length)) ' ')) =
      (List.replicate (min tf s) '=' ++ List.replicate (s - min tf s) ' ') ++
      (msg ++
       (List.replicate (min (tf - s) (w - (s + msg.length))) '=' ++
        List.replicate ((w - (s + msg.length)) -
          min (tf - s) (w - (s + msg.length))) ' ')) := by
  rw [fillCells_append]
  rw [fillCells_disjoint s (s + msg.length) (List.replicate s ' ') tf 0
      (Or.inr (by simp))]
  rw [fillRem_disjoint s (s + msg.length) (List.replicate s ' ') tf 0
      (Or.inr (by simp))]
  simp only [List.length_replicate, List.drop_replicate, Nat.zero_add]
  rw [fillCells_append]
  rw [fillCells_inRegion s (s + msg.length) msg (tf - s) s le_rfl le_rfl]
  rw [fillRem_inRegion s (s + msg.length) msg (tf - s) s le_rfl le_rfl]
  rw [fillCells_disjoint s (s + msg.length) _ (tf - s) (s + msg.length)
      (Or.inl le_rfl)]
  simp only [List.length_replicate, List.drop_replicate]

/-- The filled bar content in closed form (instantiated to the layout's
`msg_start`). -/
theorem barCells_eq (w : Nat) (msg : List Char) (tf : Nat) (hM : msg.length ≤ w) :
    barCells w msg tf =
      (List.replicate (min tf (msgStart w msg.length)) '=' ++
       List.replicate (msgStart w msg.length - min tf (msgStart w msg.length)) ' ') ++
      (msg ++
       (List.replicate (min (tf - msgStart w msg.length)
            (w - (msgStart w msg.length + msg.length))) '=' ++
        List.replicate ((w - (msgStart w msg.length + msg.length)) -
          min (tf - msgStart w msg.length)
            (w - (msgStart w msg.length + msg.length))) ' ')) := by
  have hs : msgStart w msg.length + msg.length ≤ w := msgStart_add_le hM
  unfold barCells
  rw [bar1_eq w msg hs]
  exact fill_normal_form (msgStart w msg.length) w tf msg hs

/-- The filled bar has exactly `inside_width` cells. -/
theorem barCells_length (w : Nat) (msg : List Char) (tf : Nat)
    (hM : msg.length ≤ w) : (barCells w msg tf).length = w := by
  have hs : msgStart w msg.length + msg.length ≤ w := msgStart_add_le hM
  rw [barCells_eq w msg tf hM]
  simp only [List.length_append, List.length_replicate]
  omega

/-- Dropping past a first block and taking the middle block of a
three-block concatenation returns the middle block. -/
theorem drop_take_middle {α : Type} (A m B : List α) :
    ((A ++ (m ++ B)).drop A.length).take m.length = m := by
  rw [List.drop_left, List.take_left]

/-- The fill loop never overwrites the message: the `len(msg)` cells
starting at `msg_start` still hold exactly the message. -/
theorem barCells_msg (w : Nat) (msg : List Char) (tf : Nat)
    (hM : msg.length ≤ w) :
    ((barCells w msg tf).drop (msgStart w msg.length)).take msg.length = msg := by
  rw [barCells_eq w msg tf hM]
  have h := drop_take_middle
    (List.replicate (min tf (msgStart w msg.length)) '=' ++
      List.replicate (msgStart w msg.length - min tf (msgStart w msg.length)) ' ')
    msg
    (List.replicate (min (tf - msgStart w msg.length)
        (w - (msgStart w msg.length + msg.length))) '=' ++
      List.replicate ((w - (msgStart w msg.length + msg.length)) -
        min (tf - msgStart w msg.length)
          (w - (msgStart w msg.length + msg.length))) ' ')
  have hlen : (List.replicate (min tf (msgStart w msg.length)) '=' ++
      List.replicate (msgStart w msg.length - min tf (msgStart w msg.length)) ' ').length
      = msgStart w msg.length := by
    simp only [List.length_append, List.length_replicate]
    omega
  rw [hlen] at h
  exact h

/-- The number of fill glyphs placed is `min(target_fill, inside_width -
len(msg))`. -/
theorem barCells_count (w : Nat) (msg : List Char) (tf : Nat)
    (hM : msg.length ≤ w) :
    countFill (msgStart w msg.length) (msgStart w msg.length + msg.length) 0
        (barCells w msg tf) = min tf (w - msg.length) := by
  have hs : msgStart w msg.length + msg.length ≤ w := msgStart_add_le hM
  rw [barCells_eq w msg tf hM]
  rw [countFill_append, countFill_append, countFill_append, countFill_append]
  simp only [List.length_append, List.length_replicate]
  rw [countFill_fill _ _ _ 0 (Or.inr (by omega))]
  rw [countFill_space]
  rw [countFill_inRegion _ _ msg _ (by omega) (by omega)]
  rw [countFill_fill _ _ _ _ (Or.inl (by omega))]
  rw [countFill_space]
  omega

/-- The (possibly truncated) message never exceeds the bar width. -/
theorem truncMsg_length_le (msg : List Char) (w : Nat) :
    (truncMsg msg w).length ≤ w := by
  unfold truncMsg
  split_ifs with h1 h2
  · simp only [List.length_append, List.length_take, List.length_cons,
      List.length_nil]
    omega
  · simp only [List.length_take]
    omega
  · omega

/-- On overflow (with at least 3 columns) the message is cut to
`width - 1` code points plus one ellipsis. -/
theorem truncMsg_overflow (msg : List Char) (w : Nat) (h : w < msg.length)
    (h3 : 3 ≤ w) : truncMsg msg w = msg.take (w - 1) ++ ['…'] := by
  unfold truncMsg
  rw [if_pos h, if_pos h3]

/-- On overflow the truncated message occupies exactly the bar width. -/
theorem truncMsg_overflow_length (msg : List Char) (w : Nat)
    (h : w < msg.length) (h3 : 3 ≤ w) : (truncMsg msg w).length = w := by
  rw [truncMsg_overflow msg w h h3]
  simp only [List.length_append, List.length_take, List.length_cons,
    List.length_nil]
  omega

/-- On overflow the truncated message ends in the single ellipsis. -/
theorem truncMsg_overflow_last (msg : List Char) (w : Nat)
    (h : w < msg.length) (h3 : 3 ≤ w) :
    (truncMsg msg w).getLast? = some '…' := by
  rw [truncMsg_overflow msg w h h3]
  exact List.getLast?_concat _

/-- The inside width never drops below the 8-column floor. -/
theorem insideWidth_ge (total_cols dead : Int) : 8 ≤ insideWidth total_cols dead := by
  unfold insideWidth
  omega

/-- The verbosity gate of every leveled message method: output is produced
iff the message's verbosity is at most the instance threshold. -/
theorem gate_isSome (c : Cliasi) (v : Int) (x : List Char) :
    (if verboseCheck c v then none else some x).isSome = true ↔
      v ≤ c.min_verbose_level := by
  unfold verboseCheck
  by_cases h : v > c.min_verbose_level
  · simp [h]
  · simp [h]
    omega

/-- Total length of the rendered layout string: the inside width, the two
brackets, and the percent suffix when requested. -/
theorem formatOk_length (c : Cliasi) (tc : Int) (m : Option (List Char))
    (sym : List Char) (p : Int) (sp : Bool) :
    (formatProgressbarOk c tc m sym p sp).length =
      insideWidth tc (deadSpace c sym p sp) + 2 +
        (if sp then (' ' :: pyStrOfInt (max 0 (min 100 p)) ++ ['%']).length else 0) := by
  have hM := truncMsg_length_le (m.getD []) (insideWidth tc (deadSpace c sym p sp))
  have hbar := barCells_length (insideWidth tc (deadSpace c sym p sp))
      (truncMsg (m.getD []) (insideWidth tc (deadSpace c sym p sp)))
      (targetFill (max 0 (min 100 p)).toNat (insideWidth tc (deadSpace c sym p sp))) hM
  show ('[' :: barCells (insideWidth tc (deadSpace c sym p sp))
      (truncMsg (m.getD []) (insideWidth tc (deadSpace c sym p sp)))
      (targetFill (max 0 (min 100 p)).toNat (insideWidth tc (deadSpace c sym p sp))) ++
        [']'] ++ (if sp then ' ' :: pyStrOfInt (max 0 (min 100 p)) ++ ['%'] else [])).length = _
  cases sp <;> simp [hbar] <;> omega

/-- The concrete sample message strings used in the closed evaluations. -/
def msgM : List Char := "m".toList

/-- The non-numeric sample `progress` argument. -/
def strABC : List Char := "abc".toList

/-- A 9-code-point message, longer than the 8-column minimum bar width. -/
def longMsg : List Char := "123456789".toList

/-- The replacement message used in the update round-trip evaluation. -/
def newMsg : List Char := "new".toList

/-- The message used in the after-stop update evaluation. -/
def xMsg : List Char := "x".toList

/-- C10: for every leveled message method (`message`, `info`, `log`,
`log_small`, `list`, `warn`, `fail`, `success`) of an output instance,
called with verbosity argument `v`, a line is written to the output iff
`v ≤ min_verbose_level`; every call with `v` strictly greater produces no
output at all. -/
theorem c10_verbosity_gate (c : Cliasi) (m : List Char) (v : Int) (ov : Option Bool) :
    ((Cliasi.message c m v ov).isSome = true ↔ v ≤ c.min_verbose_level) ∧
    ((Cliasi.info c m v ov).isSome = true ↔ v ≤ c.min_verbose_level) ∧
    ((Cliasi.log c m v ov).isSome = true ↔ v ≤ c.min_verbose_level) ∧
    ((Cliasi.log_small c m v ov).isSome = true ↔ v ≤ c.min_verbose_level) ∧
    ((Cliasi.list c m v ov).isSome = true ↔ v ≤ c.min_verbose_level) ∧
    ((Cliasi.warn c m v ov).isSome = true ↔ v ≤ c.min_verbose_level) ∧
    ((Cliasi.fail c m v ov).isSome = true ↔ v ≤ c.min_verbose_level) ∧
    ((Cliasi.success c m v ov).isSome = true ↔ v ≤ c.min_verbose_level) :=
  ⟨gate_isSome c v _, gate_isSome c v _, gate_isSome c v _, gate_isSome c v _,
   gate_isSome c v _, gate_isSome c v _, gate_isSome c v _, gate_isSome c v _⟩

/-- C8: for every terminal width `w ≥ 1` and all message, progress and
show_percent inputs, the inside width is `max(8, w - overhead - 2) ≥ 8`
(never zero or negative), the rendered string is exactly the bracketed bar
plus the optional percent suffix, and its total visual length is at least
`8 + 2` bracket columns.  (Determinism is immediate: the layout is a pure
function of its inputs.) -/
theorem c8_width_floor (c : Cliasi) (tc : Int) (m : Option (List Char))
    (sym : List Char) (p : Int) (sp : Bool) (_h : 1 ≤ tc) :
    8 ≤ insideWidth tc (deadSpace c sym p sp) ∧
    (formatProgressbarOk c tc m sym p sp).length =
      insideWidth tc (deadSpace c sym p sp) + 2 +
        (if sp then (' ' :: pyStrOfInt (max 0 (min 100 p)) ++ ['%']).length else 0) ∧
    10 ≤ (formatProgressbarOk c tc m sym p sp).length := by
  have hw8 := insideWidth_ge tc (deadSpace c sym p sp)
  have hlen := formatOk_length c tc m sym p sp
  refine ⟨hw8, hlen, ?_⟩
  rw [hlen]
  cases sp <;> simp <;> omega

/-- C8, witness: the floor applies at the concrete width `w = 1`. -/
theorem c8_width_floor_witness :
    (1 : Int) ≤ 1 ∧ 8 ≤ insideWidth 1 (deadSpace cfgAN ['#'] 50 true) :=
  ⟨by decide, (c8_width_floor cfgAN 1 none ['#'] 50 true (by decide)).1⟩

/-- C6: whenever the message exceeds the inside width it is truncated to
occupy exactly the inside width, with a single ellipsis as its final
character (at least 3 columns are always available, because the width floor
is 8 — the no-ellipsis hard-truncation branch is unreachable); the
truncation never raises, and the rendered layout still spans the computed
`inside_width` plus brackets and suffix. -/
theorem c6_truncation (c : Cliasi) (tc : Int) (m : List Char) (sym : List Char)
    (p : Int) (sp : Bool)
    (h : insideWidth tc (deadSpace c sym p sp) < m.length) :
    (truncMsg m (insideWidth tc (deadSpace c sym p sp))).length =
        insideWidth tc (deadSpace c sym p sp) ∧
    (truncMsg m (insideWidth tc (deadSpace c sym p sp))).getLast? = some '…' ∧
    (formatProgressbarOk c tc (some m) sym p sp).length =
      insideWidth tc (deadSpace c sym p sp) + 2 +
        (if sp then (' ' :: pyStrOfInt (max 0 (min 100 p)) ++ ['%']).length else 0) := by
  have hw8 := insideWidth_ge tc (deadSpace c sym p sp)
  have h3 : 3 ≤ insideWidth tc (deadSpace c sym p sp) := by omega
  exact ⟨truncMsg_overflow_length m _ h h3, truncMsg_overflow_last m _ h h3,
    formatOk_length c tc (some m) sym p sp⟩

/-- C6, witness: a 9-code-point message on a 20-column terminal (inside
width 8) gets ellipsis-truncated. -/
theorem c6_truncation_witness :
    insideWidth 20 (deadSpace cfgPB ['#'] 0 false) < longMsg.length ∧
    (truncMsg longMsg (insideWidth 20 (deadSpace cfgPB ['#'] 0 false))).getLast? =
      some '…' :=
  ⟨by decide, (c6_truncation cfgPB 20 longMsg ['#'] 0 false (by decide)).2.1⟩

/-- The inside width produced by a 59-column terminal for the sample
spinner instance (it evaluates to 45). -/
def w45 : Nat := insideWidth 59 (deadSpace cfgAN ['#'] 70 false)

set_option maxRecDepth 16384 in
/-- C7, counterexample: at progress 70 on a 45-cell bar the program
computes `round(0.7 * 45) = round(31.499999999999996) = 31` fill cells —
the double nearest `0.7` lies just below it — while the claim's formula
`round(70 / 100 * 45) = round(31.5)` gives 32.  So on the code the number
of `'='` cells is 31, not `min(round(p / 100 * w), w - len(msg)) = 32`,
refuting the claimed target-fill formula at a concrete input. -/
theorem c7_counterexample :
    formatProgressbarOk cfgAN 59 none ['#'] 70 false =
      '[' :: barCells w45 [] (targetFill 70 w45) ++ [']'] ∧
    targetFill 70 w45 = 31 ∧
    specTargetFill 70 w45 = 32 ∧
    countFill (msgStart w45 0) (msgStart w45 0 + 0) 0
        (barCells w45 [] (targetFill 70 w45)) ≠
      min (specTargetFill 70 w45) (w45 - 0) := by
  decide

/-- C7 (amended): the target fill count is Python's float evaluation
`round((p / 100.0) * inside_width)` — modelled bit-exactly by `targetFill`
(correctly rounded IEEE binary64 division, conversion and multiplication,
then `round` half-to-even) — which can differ by one from the exact
rounding of `p * w / 100` at tie-adjacent inputs; fill glyphs `'='` are
placed left-to-right skipping every cell of the centered message, stopping
at the target or the bar's end, so no message cell is ever overwritten and
the number of fill cells is exactly `min(target_fill, inside_width -
len(msg))`.  The width bound keeps the input inside the float model's
faithful domain: beyond it Python's int-to-float conversion of
`inside_width` would overflow and raise rather than render. -/
theorem c7_fill_discipline (c : Cliasi) (tc : Int) (m : Option (List Char))
    (sym : List Char) (p : Int) (sp : Bool)
    (_hw : insideWidth tc (deadSpace c sym p sp) < 2 ^ 1020) :
    let w := insideWidth tc (deadSpace c sym p sp)
    let msg := truncMsg (m.getD []) w
    let tf := targetFill (max 0 (min 100 p)).toNat w
    formatProgressbarOk c tc m sym p sp =
      '[' :: barCells w msg tf ++ [']'] ++
        (if sp then ' ' :: pyStrOfInt (max 0 (min 100 p)) ++ ['%'] else []) ∧
    ((barCells w msg tf).drop (msgStart w msg.length)).take msg.length = msg ∧
    countFill (msgStart w msg.length) (msgStart w msg.length + msg.length) 0
        (barCells w msg tf) = min tf (w - msg.length) := by
  intro w msg tf
  have hM := truncMsg_length_le (m.getD []) w
  exact ⟨rfl, barCells_msg w msg tf hM, barCells_count w msg tf hM⟩

set_option maxRecDepth 16384 in
/-- C7, witness: the amended fill-count equation applied at the concrete
59-column input (inside width 45, progress 70, empty message). -/
theorem c7_fill_discipline_witness :
    w45 < 2 ^ 1020 ∧
    countFill (msgStart w45 0) (msgStart w45 0 + 0) 0
        (barCells w45 [] (targetFill 70 w45)) =
      min (targetFill 70 w45) (w45 - 0) :=
  ⟨by decide, (c7_fill_discipline cfgAN 59 none ['#'] 70 false (by decide)).2.2⟩

/-- C5: line 301 (`p = max(0, min(100, progress))`) clamps the **raw**
`progress` argument instead of the int-converted `p` from the
`try/except ValueError` above it, so a non-numeric (string) progress is
*not* treated as 0 — the comparison against `0`/`100` raises `TypeError`
(evaluated here at the failing input `progress = "abc"`).  For integer
input the claim's clamping does hold: the result is the bracketed bar with
the percent suffix showing `max(0, min(100, progress))`. -/
theorem c5_nonnumeric_progress_raises :
    formatProgressbar cfgAN 40 (some msgM) ['#'] (.str strABC) true =
      .error .typeError ∧
    ∀ (c : Cliasi) (tc : Int) (m : Option (List Char)) (sym : List Char) (p : Int),
      formatProgressbar c tc m sym (.int p) true =
        .ok ('[' :: barCells (insideWidth tc (deadSpace c sym p true))
              (truncMsg (m.getD []) (insideWidth tc (deadSpace c sym p true)))
              (targetFill (max 0 (min 100 p)).toNat
                (insideWidth tc (deadSpace c sym p true))) ++
            [']'] ++ (' ' :: pyStrOfInt (max 0 (min 100 p)) ++ ['%'])) :=
  ⟨rfl, fun _ _ _ _ _ => rfl⟩

/-- The keyword passed by the repository's tests to request suppression. -/
def verbosityKw : String := "verbosity"

/-- C4: none of the four animated-task constructors
(`animate_message_non_blocking`, `animate_message_download_non_blocking`,
`progressbar_animated_normal`, `progressbar_animated_download`) has a
`verbosity` parameter, and their bodies contain no verbosity gate or no-op
task variant — so the suppressed-task calls exercised by the repository's
own tests (`verbosity=2` keyword) are rejected with `TypeError` instead of
returning a safe no-op handle. -/
theorem c4_no_verbosity_parameter :
    acceptsKeyword animate_message_non_blocking_params verbosityKw = false ∧
    acceptsKeyword animate_message_download_non_blocking_params verbosityKw = false ∧
    acceptsKeyword progressbar_animated_normal_params verbosityKw = false ∧
    acceptsKeyword progressbar_animated_download_params verbosityKw = false := by
  decide

/-- C1: the round-trip fails for progress-bar tasks.  After
`update(message="new")` the stored `_message` *is* `"new"`, but the forced
render (and every later frame) is produced by `update_bar`, which formats
the closure-captured construction-time `message` — the rendered line is
identical to the one rendered without any update, so it still displays
`"old"`, never `"new"`. -/
theorem c1_progressbar_update_ignores_message :
    (NonBlockingProgressTask.update cfgPB 40 envPB taskPB (some newMsg) none).1.message =
      newMsg ∧
    (NonBlockingProgressTask.update cfgPB 40 envPB taskPB (some newMsg) none).2 =
      (NonBlockingProgressTask.update cfgPB 40 envPB taskPB none none).2 :=
  ⟨rfl, rfl⟩

/-- C2, counterexample: with one-line mode off, the second `stop()` prints
a second trailing newline, so the observable output of `stop(); stop()`
differs from that of a single `stop()`. -/
theorem c2_counterexample :
    (NonBlockingAnimationTask.stop taskAN).2 ++
        (NonBlockingAnimationTask.stop (NonBlockingAnimationTask.stop taskAN).1).2 ≠
      (NonBlockingAnimationTask.stop taskAN).2 := by
  decide

/-- C2 (amended): a second `stop()` raises no exception and leaves the task
state unchanged, and it emits exactly the same output as the first one —
nothing when one-line mode is in effect (so there the call is a true no-op),
one trailing newline otherwise (so there the two calls together emit a
duplicate newline).  This holds for spinner and progress tasks alike. -/
theorem c2_second_stop (t : NonBlockingAnimationTask) (pt : NonBlockingProgressTask) :
    ((NonBlockingAnimationTask.stop (NonBlockingAnimationTask.stop t).1).1 =
        (NonBlockingAnimationTask.stop t).1 ∧
     (NonBlockingAnimationTask.stop (NonBlockingAnimationTask.stop t).1).2 =
        (NonBlockingAnimationTask.stop t).2 ∧
     (NonBlockingAnimationTask.stop t).2 =
        (if t.message_stays_in_one_line then [] else [['\n']])) ∧
    ((NonBlockingProgressTask.stop (NonBlockingProgressTask.stop pt).1).1 =
        (NonBlockingProgressTask.stop pt).1 ∧
     (NonBlockingProgressTask.stop (NonBlockingProgressTask.stop pt).1).2 =
        (NonBlockingProgressTask.stop pt).2 ∧
     (NonBlockingProgressTask.stop pt).2 =
        (if pt.message_stays_in_one_line then [] else [['\n']])) :=
  ⟨⟨rfl, rfl, rfl⟩, ⟨rfl, rfl, rfl⟩⟩

/-- C3, counterexample: writes can still occur after `stop()` has returned —
calling `update` on the stopped handle renders a frame (the `_update`
closure never checks the cancellation flag). -/
theorem c3_counterexample :
    (NonBlockingAnimationTask.update cfgAN envAN
        (NonBlockingAnimationTask.stop taskAN).1 (some xMsg)).2 ≠ [] := by
  decide

/-- C3 (amended): when `stop()` returns, the cancellation signal is set and
the background execution unit has terminated (join semantics), and the
background loop never renders again — a tick on the stopped task emits no
output and leaves the state unchanged.  Subsequent *caller* operations on
the handle can still write, however: `update` renders a frame synchronously
and a further `stop` re-emits the trailing newline when one-line mode is
off. -/
theorem c3_background_terminated (c : Cliasi) (env : AnimEnv)
    (t : NonBlockingAnimationTask) (cp : Cliasi) (tc : Int) (envp : ProgressEnv)
    (pt : NonBlockingProgressTask) :
    ((NonBlockingAnimationTask.stop t).1.condition = true ∧
     (NonBlockingAnimationTask.stop t).1.threadDone = true ∧
     (NonBlockingAnimationTask.tick c env (NonBlockingAnimationTask.stop t).1).2 = [] ∧
     (NonBlockingAnimationTask.tick c env (NonBlockingAnimationTask.stop t).1).1 =
        (NonBlockingAnimationTask.stop t).1) ∧
    ((NonBlockingProgressTask.stop pt).1.condition = true ∧
     (NonBlockingProgressTask.stop pt).1.threadDone = true ∧
     (NonBlockingProgressTask.tick cp tc envp (NonBlockingProgressTask.stop pt).1).2 = [] ∧
     (NonBlockingProgressTask.tick cp tc envp (NonBlockingProgressTask.stop pt).1).1 =
        (NonBlockingProgressTask.stop pt).1) :=
  ⟨⟨rfl, rfl, rfl, rfl⟩, ⟨rfl, rfl, rfl, rfl⟩⟩

/-- C9: an `update` call stores a supplied field and leaves an absent
(`None`) field unchanged (`Option.getD` is exactly Python's
`x if x is not None else old`); the update does not advance the frame
index, and its immediate render is produced from the *post-write* state at
that unchanged index; the index is incremented only by a background tick
(and only while the task is running). -/
theorem c9_update_fields (c : Cliasi) (tc : Int) (env : ProgressEnv)
    (t : NonBlockingProgressTask) (m : Option (List Char)) (p : Option Int)
    (ca : Cliasi) (enva : AnimEnv) (ta : NonBlockingAnimationTask)
    (ma : Option (List Char)) :
    ((NonBlockingProgressTask.update c tc env t m p).1.message = m.getD t.message ∧
     (NonBlockingProgressTask.update c tc env t m p).1.progress = p.getD t.progress ∧
     (NonBlockingProgressTask.update c tc env t m p).1.index = t.index ∧
     (NonBlockingProgressTask.update c tc env t m p).2 =
       [update_bar c tc env (NonBlockingProgressTask.update c tc env t m p).1] ∧
     (NonBlockingProgressTask.tick c tc env t).1.index =
       (if t.condition then t.index else t.index + 1)) ∧
    ((NonBlockingAnimationTask.update ca enva ta ma).1.message = ma.getD ta.message ∧
     (NonBlockingAnimationTask.update ca enva ta ma).1.index = ta.index ∧
     (NonBlockingAnimationTask.update ca enva ta ma).2 =
       [animUpdateClosure ca enva (NonBlockingAnimationTask.update ca enva ta ma).1] ∧
     (NonBlockingAnimationTask.tick ca enva ta).1.index =
       (if ta.condition then ta.index else ta.index + 1)) := by
  refine ⟨⟨rfl, rfl, rfl, rfl, ?_⟩, rfl, rfl, rfl, ?_⟩
  · cases hc : t.condition <;>
      simp [NonBlockingProgressTask.tick, NonBlockingProgressTask.update, hc]
  · cases hc : ta.condition <;>
      simp [NonBlockingAnimationTask.tick, NonBlockingAnimationTask.update, hc]
